import Mathlib

/-!
Verification development for the KiwiMarkup converter
(src/kiwimark/kiwimark.py): a shallow embedding of the line classifier,
the inline substitution pipeline and the section state machine, with
theorems settling the specification's claims. Strings are modelled as
lists of characters; the anchored regular expressions of the source are
translated into explicit scanners with Python's leftmost, greedy,
backtracking semantics.
-/

namespace Kiwi

/-- Strings are modelled as lists of characters. -/
abbrev Str := List Char

/-- Python whitespace: the regex class \s and the default of str.strip. -/
def isSpaceChar (c : Char) : Bool :=
  c = ' ' || c = '\t' || c = '\n' || c = '\r' || c = '\x0b' || c = '\x0c'

/-- Python str.rstrip(): drop trailing whitespace. -/
def rstrip (s : Str) : Str :=
  (s.reverse.dropWhile isSpaceChar).reverse

/-- Python str.strip(): drop leading and trailing whitespace. -/
def stripStr (s : Str) : Str :=
  rstrip (s.dropWhile isSpaceChar)

/-- re.sub of tab by four spaces, applied by execute to each line. -/
def tabExpand (s : Str) : Str :=
  (s.map (fun c => if c = '\t' then "    ".data else [c])).flatten

/-- Python "    " * n (the repeat count is clamped at zero by the caller). -/
def spaces (n : Nat) : Str := List.replicate n ' '

/-- Does the second list start with the first. -/
def startsWith : Str → Str → Bool
  | [], _ => true
  | _ :: _, [] => false
  | p :: ps, c :: cs => p = c && startsWith ps cs

/-- Strip a literal prefix from a list, or fail. -/
def dropLit : Str → Str → Option Str
  | [], s => some s
  | _ :: _, [] => none
  | p :: ps, c :: cs => if p = c then dropLit ps cs else none

/-- Does s contain sub as a contiguous substring (re.search of a literal). -/
def containsSub (sub : Str) : Str → Bool
  | [] => startsWith sub []
  | c :: cs => startsWith sub (c :: cs) || containsSub sub cs

/-- Python thisLine.split on the pipe character: split at every pipe with no
merging of empty pieces; the result always has at least one piece. -/
def splitPipe : Str → List Str
  | [] => [[]]
  | c :: cs =>
    let r := splitPipe cs
    if c = '|' then [] :: r
    else
      match r with
      | [] => [[c]]
      | p :: ps => (c :: p) :: ps

/-- The regex dollar anchor without MULTILINE: the end of the string, or just
before a newline that ends the string. -/
def dollarEnd : Str → Bool
  | [] => true
  | ['\n'] => true
  | _ => false

/-- HEADER_REGEX, an anchored re.search: up to three whitespace characters,
one to six hash marks (greedy), whitespace, then the non-hash remainder.
Returns (header level, header text). -/
def atxMatch (s : Str) : Option (Nat × Str) :=
  let ws := s.takeWhile isSpaceChar
  if ws.length ≤ 3 then
    let r := s.drop ws.length
    let hs := r.takeWhile (fun c => c = '#')
    if hs.length = 0 then none
    else
      let level := min hs.length 6
      let r2 := (r.drop level).dropWhile isSpaceChar
      some (level, r2.takeWhile (fun c => c != '#'))
  else none

/-- LIST_REGEX: leading whitespace, an asterisk, at least one whitespace
character, then the item text (the dot of the regex stops at a newline).
Returns (indent length, item text). -/
def listMatch (s : Str) : Option (Nat × Str) :=
  let ws := s.takeWhile isSpaceChar
  match s.drop ws.length with
  | '*' :: r =>
    let ws2 := r.takeWhile isSpaceChar
    if ws2.length = 0 then none
    else some (ws.length, (r.drop ws2.length).takeWhile (fun c => c != '\n'))
  | _ => none

/-- TABLE_HEADER_REGEX, an anchored re.search (a prefix match suffices): up
to three whitespace characters, a run of pipes or pluses, then at least one
group of three or more hyphens followed by a pipe or a plus. -/
def tableDividerMatch (s : Str) : Bool :=
  let ws := s.takeWhile isSpaceChar
  if ws.length ≤ 3 then
    let r := (s.drop ws.length).dropWhile (fun c => c = '|' || c = '+')
    let hy := r.takeWhile (fun c => c = '-')
    decide (3 ≤ hy.length) &&
      (match r.drop hy.length with
       | c :: _ => c = '|' || c = '+'
       | [] => false)
  else false

/-- The setext underline regex for level one: five or more equals signs
followed by one or more, so at least six in all, up to the end of the
line. -/
def eqUnderline (s : Str) : Bool :=
  let run := s.takeWhile (fun c => c = '=')
  decide (6 ≤ run.length) && dollarEnd (s.drop run.length)

/-- The setext underline regex for level two and the horizontal-rule regex:
both require at least six hyphens up to the end of the line. -/
def dashUnderline (s : Str) : Bool :=
  let run := s.takeWhile (fun c => c = '-')
  decide (6 ≤ run.length) && dollarEnd (s.drop run.length)

/-- CODEBLOCK_START_REGEX: optional whitespace, the literal code fence
opener, a run of non-whitespace (the language), optional whitespace, end of
line. Returns the language. -/
def codeStartMatch (s : Str) : Option Str :=
  match dropLit "code:".data (s.dropWhile isSpaceChar) with
  | some r =>
    let lang := r.takeWhile (fun c => !(isSpaceChar c))
    if dollarEnd ((r.drop lang.length).dropWhile isSpaceChar) then some lang else none
  | none => none

/-- CODEBLOCK_END_REGEX: optional whitespace, the literal fence closer,
optional whitespace, end of line. -/
def codeEndMatch (s : Str) : Bool :=
  match dropLit ":code".data (s.dropWhile isSpaceChar) with
  | some r => dollarEnd (r.dropWhile isSpaceChar)
  | none => false

/-- cgi.escape with quote left at its default: replace ampersand, then the
angle brackets; the three sequential replacements amount to this
character-wise map because no replacement text contains a character replaced
later. -/
def cgiEscape (s : Str) : Str :=
  (s.map (fun c =>
    if c = '&' then "&amp;".data
    else if c = '<' then "&lt;".data
    else if c = '>' then "&gt;".data
    else [c])).flatten

/-- KIWI_MODE_STD of the source. -/
def KIWI_MODE_STD : Nat := 0

/-- KIWI_MODE_ORG of the source. -/
def KIWI_MODE_ORG : Nat := 1

/-- One global regex substitution pass (re.sub): scan left to right; where
the pattern matches, append the expanded replacement and resume after the
match, else copy one character and move on. Every pattern below consumes at
least one character when it matches, so the input length bounds the number
of steps and serves as fuel; the flag is true exactly at the start of the
string (the caret anchor). -/
def subPass (tryAt : Bool → Str → Option (Str × Str)) : Nat → Bool → Str → Str
  | 0, _, s => s
  | fuel + 1, atStart, s =>
    match tryAt atStart s with
    | some (rep, rest) => rep ++ subPass tryAt fuel false rest
    | none =>
      match s with
      | [] => []
      | c :: cs => c :: subPass tryAt fuel false cs

/-- Run one substitution pass over a whole string. -/
def runSub (tryAt : Bool → Str → Option (Str × Str)) (s : Str) : Str :=
  subPass tryAt s.length true s

/-- The closing punctuation class of BOLD_END_REGEX plus whitespace. -/
def boldPunct (c : Char) : Bool :=
  c = ')' || c = ':' || c = ';' || c = '.' || c = ',' || c = '?' ||
    c = '[' || c = ']' || isSpaceChar c

/-- The closing punctuation class of EMPH_END_REGEX plus whitespace: the bold
class and the double quote. -/
def emphPunct (c : Char) : Bool :=
  boldPunct c || c = '\"'

/-- BOLD_START_REGEX with replacement group one, the bold opener, group
three. The alternatives of the leading group are tried in the pattern's
order: the caret, one bracket or whitespace character, the literal
space-underscore pair. -/
def boldStartTry (atStart : Bool) (s : Str) : Option (Str × Str) :=
  (match s with
   | '*' :: '*' :: c :: rest =>
     if atStart && !(isSpaceChar c) then some ("<b>".data ++ [c], rest) else none
   | _ => none) <|>
  (match s with
   | a :: '*' :: '*' :: c :: rest =>
     if (a = '[' || a = ']' || isSpaceChar a) && !(isSpaceChar c) then
       some (a :: ("<b>".data ++ [c]), rest)
     else none
   | _ => none) <|>
  (match s with
   | ' ' :: '_' :: '*' :: '*' :: c :: rest =>
     if !(isSpaceChar c) then some (" _<b>".data ++ [c], rest) else none
   | _ => none)

/-- BOLD_END_REGEX with replacement group one, the bold closer, group three.
The trailing group's alternatives in the pattern's order: the literal
underscore-space pair, a nonempty greedy run of closing punctuation or
whitespace, or the end of the line (which consumes nothing). -/
def boldEndTry (_atStart : Bool) (s : Str) : Option (Str × Str) :=
  match s with
  | a :: '*' :: '*' :: r =>
    if isSpaceChar a then none
    else
      match r with
      | '_' :: ' ' :: rest => some (a :: ("</b>".data ++ "_ ".data), rest)
      | _ =>
        let run := r.takeWhile boldPunct
        if run.length ≠ 0 then some (a :: ("</b>".data ++ run), r.drop run.length)
        else if dollarEnd r then some (a :: "</b>".data, r)
        else none
  | _ => none

/-- EMPH_START_REGEX with replacement group one, the italic opener, group
three. The leading group's alternatives in order: the caret, one bracket,
whitespace or double-quote character, the literal bold opener. -/
def emphStartTry (atStart : Bool) (s : Str) : Option (Str × Str) :=
  (match s with
   | '_' :: c :: rest =>
     if atStart && !(isSpaceChar c) then some ("<i>".data ++ [c], rest) else none
   | _ => none) <|>
  (match s with
   | a :: '_' :: c :: rest =>
     if (a = '[' || a = ']' || a = '\"' || isSpaceChar a) && !(isSpaceChar c) then
       some (a :: ("<i>".data ++ [c]), rest)
     else none
   | _ => none) <|>
  (match s with
   | '<' :: 'b' :: '>' :: '_' :: c :: rest =>
     if !(isSpaceChar c) then some ("<b><i>".data ++ [c], rest) else none
   | _ => none)

/-- EMPH_END_REGEX with replacement group one, the italic closer, group
three. The trailing group's alternatives in order: the literal closing bold
tag, a nonempty greedy punctuation or whitespace run, the end of the
line. -/
def emphEndTry (_atStart : Bool) (s : Str) : Option (Str × Str) :=
  match s with
  | a :: '_' :: r =>
    if isSpaceChar a then none
    else
      match r with
      | '<' :: '/' :: 'b' :: '>' :: rest =>
        some (a :: ("</i>".data ++ "</b>".data), rest)
      | _ =>
        let run := r.takeWhile emphPunct
        if run.length ≠ 0 then some (a :: ("</i>".data ++ run), r.drop run.length)
        else if dollarEnd r then some (a :: "</i>".data, r)
        else none
  | _ => none

/-- The shared bracket-parenthesis tail of the url and image patterns: a
closing bracket, an opening parenthesis, a greedy run of non-parenthesis
characters (the path), a closing parenthesis. -/
def parenTail (r : Str) : Option (Str × Str) :=
  match r with
  | ']' :: '(' :: r2 =>
    let g := r2.takeWhile (fun c => c != ')')
    (match r2.drop g.length with
     | ')' :: rest => some (g, rest)
     | _ => none)
  | _ => none

/-- MD_IMG_REGEX with its image-element replacement. -/
def mdImgTry (_atStart : Bool) (s : Str) : Option (Str × Str) :=
  match s with
  | '!' :: '[' :: r =>
    let alt := r.takeWhile (fun c => c != ']')
    (parenTail (r.drop alt.length)).map (fun p =>
      ("<img src='".data ++ p.1 ++ "' alt='".data ++ alt ++
        "' title='".data ++ alt ++ "'/>".data, p.2))
  | _ => none

/-- MD_URL_REGEX with its anchor replacement. -/
def mdUrlTry (_atStart : Bool) (s : Str) : Option (Str × Str) :=
  match s with
  | '[' :: r =>
    let title := r.takeWhile (fun c => c != ']')
    (parenTail (r.drop title.length)).map (fun p =>
      ("<a href='".data ++ p.1 ++ "'>".data ++ title ++ "</a>".data, p.2))
  | _ => none

/-- ORG_URL_REGEX with its anchor replacement. -/
def orgUrlTry (_atStart : Bool) (s : Str) : Option (Str × Str) :=
  match s with
  | '[' :: '[' :: r =>
    let url := r.takeWhile (fun c => c != ']')
    (match r.drop url.length with
     | ']' :: '[' :: r2 =>
       let title := r2.takeWhile (fun c => c != ']')
       (match r2.drop title.length with
        | ']' :: ']' :: rest =>
          some ("<a href='".data ++ url ++ "'>".data ++ title ++ "</a>".data, rest)
        | _ => none)
     | _ => none)
  | _ => none

/-- The optional class and alt groups shared by IMG_REGEX, AUDIO_REGEX and
LINK_REGEX, followed by the bracket-parenthesis tail. Each alternation tries
its empty alternative first, as Python does; a group whose alternative did
not take part comes back as none. Returns (group three, group six, group
seven, rest). -/
def extTail (r : Str) : Option (Option Str × Option Str × Str × Str) :=
  let bPart : Str → Option (Option Str × Str × Str) := fun r2 =>
    ((parenTail r2).map (fun p => (none, p.1, p.2))) <|>
    (match r2 with
     | ':' :: r3 =>
       let alt := r3.takeWhile (fun c => c != ']')
       (parenTail (r3.drop alt.length)).map (fun p => (some alt, p.1, p.2))
     | _ => none)
  ((bPart r).map (fun q => (none, q.1, q.2.1, q.2.2))) <|>
  (match r with
   | '.' :: r2 =>
     let cls := r2.takeWhile (fun c => c != ']' && c != ':')
     (bPart (r2.drop cls.length)).map (fun q => (some cls, q.1, q.2.1, q.2.2))
   | _ => none)

/-- The re_sub wrapper's behaviour: a capture group that did not take part
in the match expands to the empty string instead of raising. -/
def groupStr (g : Option Str) : Str := g.getD []

/-- IMG_REGEX through re_sub with the extended image template. -/
def imgTry (_atStart : Bool) (s : Str) : Option (Str × Str) :=
  match dropLit "[img".data s with
  | some r =>
    (extTail r).map (fun q =>
      ("<img src='".data ++ q.2.2.1 ++ "' class='".data ++ groupStr q.1 ++
        "' alt='".data ++ groupStr q.2.1 ++ "' title='".data ++ groupStr q.2.1 ++
        "'/>".data, q.2.2.2))
  | none => none

/-- AUDIO_REGEX through re_sub with the extended audio template. -/
def audioTry (_atStart : Bool) (s : Str) : Option (Str × Str) :=
  match dropLit "[audio".data s with
  | some r =>
    (extTail r).map (fun q =>
      ("<audio width='300px' height='32px' src='".data ++ q.2.2.1 ++
        "' class='".data ++ groupStr q.1 ++
        "' controls='controls'> Your browser does not support audio playback. </audio>".data,
        q.2.2.2))
  | none => none

/-- LINK_REGEX through re_sub with the extended link template. -/
def linkTry (_atStart : Bool) (s : Str) : Option (Str × Str) :=
  match dropLit "[link".data s with
  | some r =>
    (extTail r).map (fun q =>
      ("<a href='".data ++ q.2.2.1 ++ "' class='".data ++ groupStr q.1 ++
        "' alt='".data ++ groupStr q.2.1 ++ "'>".data ++ groupStr q.2.1 ++
        "</a>".data, q.2.2.2))
  | none => none

/-- The digit class of the footnote patterns. -/
def isDigitChar (c : Char) : Bool := '0' ≤ c && c ≤ '9'

/-- FOOTNOTE_TARGET_REGEX with its back-reference anchor replacement. -/
def footnoteTargetTry (_atStart : Bool) (s : Str) : Option (Str × Str) :=
  match s with
  | '[' :: '^' :: r =>
    let n := r.takeWhile isDigitChar
    if n.length = 0 then none
    else
      match r.drop n.length with
      | ']' :: ':' :: rest =>
        some (n ++ ". <a name='footnote_target_".data ++ n ++
          "' href='#footnote_ref_".data ++ n ++ "'>&#160;&#8617;</a>".data, rest)
      | _ => none
  | _ => none

/-- FOOTNOTE_REGEX with its superscript anchor replacement. -/
def footnoteTry (_atStart : Bool) (s : Str) : Option (Str × Str) :=
  match s with
  | '[' :: '^' :: r =>
    let n := r.takeWhile isDigitChar
    if n.length = 0 then none
    else
      match r.drop n.length with
      | ']' :: rest =>
        some ("<a name='footnote_ref_".data ++ n ++ "' href='#footnote_target_".data ++
          n ++ "'>[<sup>".data ++ n ++ "</sup>]</a>".data, rest)
      | _ => none
  | _ => none

/-- KiwiMarkup.applyInlineMarkup: the ordered substitution pipeline. The flag
is the scanned line's isOrgHeader, which the source reads from self.line;
the bold passes are skipped for org headers. -/
def applyInlineMarkup (isOrgHeader : Bool) (line : Str) : Str :=
  let line := if !isOrgHeader then runSub boldEndTry (runSub boldStartTry line) else line
  let line := runSub emphEndTry (runSub emphStartTry line)
  let line := runSub mdImgTry line
  let line := runSub imgTry line
  let line := runSub audioTry line
  let line := runSub linkTry line
  let line := runSub mdUrlTry line
  let line := runSub orgUrlTry line
  let line := runSub footnoteTargetTry line
  runSub footnoteTry line

/-- KiwiLineScanner's mutable attributes. The source's reset() omits
isHorizontalLine, so that flag persists from line to line once set; the
unused class attribute isBlank is not modelled. Attributes that only
reset() introduces are given their post-reset defaults here; they are never
read before the first reset. -/
structure Scanner where
  mode : Nat
  isParagraph : Bool
  isHeader : Bool
  isList : Bool
  isTable : Bool
  isTableHeader : Bool
  isBlankLine : Bool
  isBlock : Bool
  isOrgHeader : Bool
  isCodeStart : Bool
  isCodeEnd : Bool
  isHorizontalLine : Bool
  isNestedList : Bool
  skipNextLine : Bool
  headerLevel : Nat
  headerText : Str
  listIndent : Nat
  listText : Str
  codeLanguage : Str
  tableColumns : List Str
  deriving Repr, DecidableEq

/-- KiwiLineScanner.__init__ together with the class-attribute defaults. -/
def initScanner (mode : Nat) : Scanner :=
  { mode := mode, isParagraph := true, isHeader := false, isList := false,
    isTable := false, isTableHeader := false, isBlankLine := false,
    isBlock := false, isOrgHeader := false, isCodeStart := false,
    isCodeEnd := false, isHorizontalLine := false, isNestedList := false,
    skipNextLine := false, headerLevel := 0, headerText := [],
    listIndent := 0, listText := [], codeLanguage := [], tableColumns := [] }

/-- KiwiLineScanner.reset: note that isHorizontalLine is not on the source's
reset list and keeps its previous value. -/
def Scanner.reset (sc : Scanner) : Scanner :=
  { sc with
    isParagraph := true, isHeader := false, isList := false, isTable := false,
    isTableHeader := false, isBlankLine := false, isBlock := false,
    isOrgHeader := false, isCodeStart := false, isCodeEnd := false,
    skipNextLine := false, headerLevel := 0, headerText := [],
    listIndent := 0, listText := [], isNestedList := false,
    codeLanguage := [], tableColumns := [] }

/-- KiwiState: the processor's open-section flags. The source also declares
inBold and inItalic on the class but never reads or writes them, so they
are omitted. -/
structure KiwiState where
  inParagraph : Bool
  inTable : Bool
  inList : Bool
  inBlock : Bool
  inOrgSection : Bool
  inCodeSection : Bool
  deriving Repr, DecidableEq

/-- The state a freshly constructed KiwiMarkup instance holds. -/
def freshState : KiwiState :=
  { inParagraph := false, inTable := false, inList := false, inBlock := false,
    inOrgSection := false, inCodeSection := false }

/-- KiwiLineScanner.check_for_header. -/
def check_for_header (sc : Scanner) (thisLine nextLine : Str) : Scanner :=
  match atxMatch thisLine with
  | some lt =>
    { sc with
      isParagraph := false, isHeader := true,
      headerLevel := lt.1, headerText := lt.2 }
  | none =>
    if eqUnderline nextLine then
      { sc with
        isParagraph := false, isHeader := true, skipNextLine := true,
        headerLevel := 1, headerText := thisLine }
    else if dashUnderline nextLine then
      { sc with
        isParagraph := false, isHeader := true, skipNextLine := true,
        headerLevel := 2, headerText := thisLine }
    else sc

/-- KiwiLineScanner.check_for_list: a list line is recognised only when no
indented block is open; the lookahead marks the start of a nested
sub-list. -/
def check_for_list (sc : Scanner) (thisLine nextLine : Str) (st : KiwiState) : Scanner :=
  match listMatch thisLine with
  | some it =>
    if !st.inBlock then
      let sc := { sc with
        isParagraph := false, isList := true,
        listIndent := it.1, listText := it.2 }
      match listMatch nextLine with
      | some nit => { sc with isNestedList := decide (sc.listIndent < nit.1) }
      | none => sc
    else sc
  | none => sc

/-- KiwiLineScanner.check_for_table: a table divider on the next line makes a
header row and consumes the divider; independently, a split with three or
more pieces, or any split while a table is open, makes a table row. -/
def check_for_table (sc : Scanner) (thisLine nextLine : Str) (st : KiwiState) : Scanner :=
  let sc :=
    if tableDividerMatch nextLine then
      { sc with isTable := true, isTableHeader := true, skipNextLine := true }
    else sc
  let cols := (splitPipe thisLine).map stripStr
  let sc := { sc with tableColumns := cols }
  if 3 ≤ cols.length || (0 < cols.length && st.inTable) then
    { sc with isTable := true }
  else sc

/-- KiwiLineScanner.check_for_block: four leading spaces and no open
table. -/
def check_for_block (sc : Scanner) (thisLine : Str) (st : KiwiState) : Scanner :=
  if thisLine.take 4 = "    ".data && !st.inTable then
    { sc with isParagraph := false, isBlock := true }
  else sc

/-- KiwiLineScanner.check_for_horizontal_line. -/
def check_for_horizontal_line (sc : Scanner) (thisLine : Str) : Scanner :=
  if dashUnderline thisLine then
    { sc with isParagraph := false, isHorizontalLine := true }
  else sc

/-- KiwiLineScanner.check_for_code_start. -/
def check_for_code_start (sc : Scanner) (thisLine : Str) : Scanner :=
  match codeStartMatch thisLine with
  | some lang => { sc with isCodeStart := true, codeLanguage := lang }
  | none => sc

/-- KiwiLineScanner.check_for_code_end. -/
def check_for_code_end (sc : Scanner) (thisLine : Str) : Scanner :=
  if codeEndMatch thisLine then
    { sc with isCodeEnd := true, codeLanguage := [] }
  else sc

/-- KiwiLineScanner.check_for_org_header: called for non-blank lines only,
so the stripped line is never empty in the source. -/
def check_for_org_header (sc : Scanner) (thisLine : Str) : Scanner :=
  match stripStr thisLine with
  | '*' :: _ => { sc with isParagraph := false, isOrgHeader := true }
  | _ => sc

/-- KiwiLineScanner.scan: reset, the blank test, then the detectors in the
source's order; the org-header detector runs only in org mode. -/
def Scanner.scan (sc : Scanner) (thisLine nextLine : Str) (st : KiwiState) : Scanner :=
  let sc := sc.reset
  if stripStr thisLine = [] then
    { sc with isBlankLine := true, isParagraph := false }
  else
    let sc := check_for_header sc thisLine nextLine
    let sc := check_for_table sc thisLine nextLine st
    let sc := check_for_block sc thisLine st
    let sc := check_for_list sc thisLine nextLine st
    let sc := check_for_horizontal_line sc thisLine
    let sc := check_for_code_start sc thisLine
    let sc := check_for_code_end sc thisLine
    if sc.mode = KIWI_MODE_ORG then check_for_org_header sc thisLine else sc

/-- The whole KiwiMarkup instance during execute: state, scanner, mode, the
two-slot lookahead buffer, the list indent stack and the output. -/
structure Markup where
  state : KiwiState
  line : Scanner
  mode : Nat
  thisLine : Option Str
  nextLine : Option Str
  indents : List Nat
  output : List Str
  deriving Repr, DecidableEq

/-- self.output.append(s). -/
def emit (m : Markup) (s : Str) : Markup :=
  { m with output := m.output ++ [s] }

/-- KiwiMarkup.listIndent: four spaces per entry, one less than the stack
depth plus the increment; Python's string repetition with a negative count
gives the empty string, matched here by Int.toNat. -/
def listIndentStr (m : Markup) (increment : Nat) : Str :=
  spaces ((((m.indents.length : Int) - 1 + increment).toNat) * 4)

/-- KiwiMarkup.startParagraph. -/
def startParagraph (m : Markup) : Markup :=
  if !m.state.inParagraph then
    { emit m "<p>".data with state := { m.state with inParagraph := true } }
  else m

/-- KiwiMarkup.endParagraph. -/
def endParagraph (m : Markup) : Markup :=
  if m.state.inParagraph then
    { emit m "</p>".data with state := { m.state with inParagraph := false } }
  else m

/-- KiwiMarkup.startBlock. -/
def startBlock (m : Markup) : Markup :=
  if !m.state.inBlock then
    { emit m "<pre>".data with state := { m.state with inBlock := true } }
  else m

/-- KiwiMarkup.endBlock. -/
def endBlock (m : Markup) : Markup :=
  if m.state.inBlock then
    { emit m "</pre>".data with state := { m.state with inBlock := false } }
  else m

/-- KiwiMarkup.startTable. -/
def startTable (m : Markup) : Markup :=
  if !m.state.inTable then
    { emit m "<table>".data with state := { m.state with inTable := true } }
  else m

/-- KiwiMarkup.endTable. -/
def endTable (m : Markup) : Markup :=
  if m.state.inTable then
    { emit m "</table>".data with state := { m.state with inTable := false } }
  else m

/-- KiwiMarkup.startOrgSection. -/
def startOrgSection (m : Markup) : Markup :=
  if !m.state.inOrgSection then
    { emit m "<p>".data with state := { m.state with inOrgSection := true } }
  else m

/-- KiwiMarkup.endOrgSection. -/
def endOrgSection (m : Markup) : Markup :=
  if m.state.inOrgSection then
    { emit m "</p>".data with state := { m.state with inOrgSection := false } }
  else m

/-- KiwiMarkup.startCodeSection. -/
def startCodeSection (m : Markup) : Markup :=
  if !m.state.inCodeSection then
    { emit (emit m "<pre>".data) "<code>".data with
      state := { m.state with inCodeSection := true } }
  else m

/-- KiwiMarkup.endCodeSection. -/
def endCodeSection (m : Markup) : Markup :=
  if m.state.inCodeSection then
    { emit (emit m "</code>".data) "</pre>".data with
      state := { m.state with inCodeSection := false } }
  else m

/-- KiwiMarkup.endNestedList's recursion, with the indent stack's length as
fuel; every iteration pops one entry, so the fuel suffices. The closing
tags are formatted with the stack length before the pop, as in the
source. -/
def endNestedLoop : Nat → Markup → Markup
  | 0, m => m
  | fuel + 1, m =>
    match m.indents.getLast? with
    | some indent =>
      if m.line.listIndent < indent then
        let m := emit m (listIndentStr m 1 ++ "</ul>".data)
        let m := emit m (listIndentStr m 0 ++ "</li>".data)
        endNestedLoop fuel { m with indents := m.indents.dropLast }
      else m
    | none => m

/-- KiwiMarkup.endNestedList. -/
def endNestedList (m : Markup) : Markup :=
  endNestedLoop m.indents.length m

/-- KiwiMarkup.endList. -/
def endList (m : Markup) : Markup :=
  if m.state.inList then
    let m := if m.indents.length ≠ 0 then endNestedList m else m
    if m.indents.length = 0 then
      { emit m (listIndentStr m 0 ++ "</ul>".data) with
        state := { m.state with inList := false } }
    else m
  else m

/-- KiwiMarkup.endAllLists' while loop, with the stack length as fuel; every
iteration pops one entry. -/
def endAllListsLoop : Nat → Markup → Markup
  | 0, m => m
  | fuel + 1, m =>
    if m.indents.length ≠ 0 then
      let m := emit m (listIndentStr m 1 ++ "</ul>".data)
      let m := emit m (listIndentStr m 0 ++ "</li>".data)
      endAllListsLoop fuel { m with indents := m.indents.dropLast }
    else m

/-- KiwiMarkup.endAllLists: drain the stack, then endList. -/
def endAllLists (m : Markup) : Markup :=
  endList (endAllListsLoop m.indents.length m)

/-- KiwiMarkup.startList: open a list or a nested sub-list; when the current
line is indented less than the innermost open list, first close
sub-lists. -/
def startList (m : Markup) : Markup :=
  let nm : Bool × Markup :=
    match m.indents.getLast? with
    | some indent =>
      if indent < m.line.listIndent then (true, m)
      else if m.line.listIndent < indent then (false, endNestedList m)
      else (false, m)
    | none => (false, m)
  let nested := nm.1
  let m := nm.2
  if nested || !m.state.inList then
    let m := { m with indents := m.indents ++ [m.line.listIndent] }
    let m := endParagraph m
    let m := emit m (listIndentStr m (if nested then 1 else 0) ++ "<ul>".data)
    { m with state := { m.state with inList := true } }
  else m

/-- KiwiMarkup.endAllSections: org section, block, lists, table, paragraph,
in the source's order. The code section is not on the list. -/
def endAllSections (m : Markup) : Markup :=
  endParagraph (endTable (endAllLists (endBlock (endOrgSection m))))

/-- KiwiMarkup.addListLine: start the list, then build the item line; a
nested item leaves its li tag open. Returns the machine and the new
thisLine. -/
def addListLine (m : Markup) : Markup × Str :=
  let m := startList m
  if m.line.isNestedList then
    (m, listIndentStr m 1 ++ "<li>".data ++ m.line.listText)
  else
    (m, listIndentStr m 1 ++ "<li>".data ++ m.line.listText ++ "</li>".data)

/-- Decimal rendering of a header level (Python %d). -/
def natStr (n : Nat) : Str := (Nat.repr n).data

/-- The elif chain of KiwiMarkup.processLine: given the machine after the
scan, the current line and its classification, carry out the first matching
branch. Returns the machine, the (possibly rewritten) thisLine and the
includeLine flag. -/
def dispatchBranch (m : Markup) (t : Str) (sc : Scanner) : Markup × Str × Bool :=
  if m.mode = KIWI_MODE_ORG && sc.isOrgHeader then
    (startOrgSection m, t ++ "<br/>".data, true)
  else if sc.isCodeStart then
    (startCodeSection (endAllSections m), t, false)
  else if sc.isCodeEnd then
    (endCodeSection m, t, false)
  else if m.state.inCodeSection then
    (m, t, true)
  else if sc.isList then
    let m := endParagraph (endTable (endBlock (endOrgSection m)))
    let mt := addListLine m
    (mt.1, mt.2, true)
  else if sc.isBlock then
    (startBlock (endParagraph (endTable (endAllLists (endOrgSection m)))), t, true)
  else if sc.isTable then
    let m := startTable (endParagraph (endAllLists (endBlock (endOrgSection m))))
    let m := emit m "    <tr>".data
    let m := sc.tableColumns.foldl (fun m column =>
      let column := applyInlineMarkup sc.isOrgHeader column
      if sc.isTableHeader then
        emit m ("        <th>".data ++ column ++ "</th>".data)
      else
        emit m ("        <td>".data ++ column ++ "</td>".data)) m
    (emit m "    </tr>".data, t, false)
  else if sc.isHeader then
    (endAllSections m,
     "<h".data ++ natStr sc.headerLevel ++ ">".data ++ sc.headerText ++
       "</h".data ++ natStr sc.headerLevel ++ ">".data,
     true)
  else if sc.isHorizontalLine then
    (endAllSections m, "<hr>".data, true)
  else if sc.isParagraph then
    (startParagraph (endTable (endAllLists (endBlock (endOrgSection m)))), t, true)
  else if sc.isBlankLine then
    (endParagraph (endTable (endAllLists (endOrgSection m))), t, false)
  else (m, t, true)

/-- KiwiMarkup.processLine: scan the buffered line, dispatch, then append the
line when includeLine survived; inside an indented block or a code section
the first four characters are stripped and the rest HTML-escaped, otherwise
the inline pipeline runs. -/
def processLine (m : Markup) : Markup :=
  match m.thisLine with
  | none => m
  | some t =>
    let sc := m.line.scan t (m.nextLine.getD []) m.state
    let m := { m with line := sc }
    let r := dispatchBranch m t sc
    let m := r.1
    let t2 := r.2.1
    let includeLine := r.2.2
    if includeLine then
      if !m.state.inBlock && !m.state.inCodeSection then
        emit m (applyInlineMarkup sc.isOrgHeader t2)
      else
        emit m (cgiEscape (t2.drop 4))
    else m

/-- One iteration of execute's main loop: advance the lookahead buffer
(tabs to spaces on the right-stripped raw line), then process the buffered
line unless the scanner asked for it to be skipped. -/
def execStep (m : Markup) (rawLine : Str) : Markup :=
  let m := { m with
    thisLine := m.nextLine,
    nextLine := some (tabExpand (rstrip rawLine)) }
  if !m.line.skipNextLine then processLine m
  else { m with line := { m.line with skipNextLine := false } }

/-- KiwiMarkup.execute started from an explicit KiwiState (the state the
instance holds when execute is called; a fresh instance holds freshState,
and execute does not reset it). none models the assert on empty input. A
mode argument of none is Python's None default, in which case the mode is
read off the first raw line: the org marker, read as a regex, is any
occurrence of the substring "- mode: org -". Returns the final machine;
the source's return value is whether the output is non-empty. -/
def executeFromState (st : KiwiState) (lines : List Str) (modeArg : Option Nat) :
    Option Markup :=
  match lines with
  | [] => none
  | first :: _ =>
    let mode :=
      match modeArg with
      | some mo => mo
      | none =>
        if containsSub "- mode: org -".data first then KIWI_MODE_ORG
        else KIWI_MODE_STD
    let m0 : Markup :=
      { state := st, line := initScanner mode, mode := mode,
        thisLine := none, nextLine := none, indents := [], output := [] }
    let m := lines.foldl execStep m0
    let m :=
      if !m.line.skipNextLine then
        processLine { m with thisLine := m.nextLine, nextLine := some [] }
      else m
    some (endAllSections m)

/-- The spec's convert entry point: a fresh instance, execute with the
default mode; the pair is (succeeded, output). -/
def convert (lines : List Str) : Option (Bool × List Str) :=
  (executeFromState freshState lines none).map
    (fun m => (decide (0 < m.output.length), m.output))

/-- The second machine's output extends the first machine's output. -/
def OutExt (m m2 : Markup) : Prop :=
  ∃ t2, m2.output = m.output ++ t2

/-- The machine state at the moment the first input line is processed: the
lookahead buffer holds the first prepared line and the next one, everything
else is still fresh. -/
def firstMachine (mode : Nat) (p nl : Str) : Markup :=
  { state := freshState, line := initScanner mode, mode := mode,
    thisLine := some p, nextLine := some nl, indents := [], output := [] }

/-- The dispatch categories named by the spec, in its order. -/
inductive SpecCat where
  | orgHeader
  | codeFenceStart
  | codeFenceEnd
  | insideCode
  | listCat
  | blockCat
  | tableCat
  | headerCat
  | horizontalRule
  | paragraphCat
  | blankCat
  deriving DecidableEq, Repr

/-- The guard of each spec category over the classification flags and the
open-section state. -/
def specCatGuard (mode : Nat) (st : KiwiState) (sc : Scanner) : SpecCat → Bool
  | .orgHeader => decide (mode = KIWI_MODE_ORG) && sc.isOrgHeader
  | .codeFenceStart => sc.isCodeStart
  | .codeFenceEnd => sc.isCodeEnd
  | .insideCode => st.inCodeSection
  | .listCat => sc.isList
  | .blockCat => sc.isBlock
  | .tableCat => sc.isTable
  | .headerCat => sc.isHeader
  | .horizontalRule => sc.isHorizontalLine
  | .paragraphCat => sc.isParagraph
  | .blankCat => sc.isBlankLine

/-- The spec's fixed dispatch order: org-header, code-fence-start,
code-fence-end, inside-code, list, block, table, header, horizontal-rule,
paragraph, blank. -/
def specDispatchOrder : List SpecCat :=
  [.orgHeader, .codeFenceStart, .codeFenceEnd, .insideCode, .listCat,
   .blockCat, .tableCat, .headerCat, .horizontalRule, .paragraphCat, .blankCat]

/-- First match wins over the spec's order. -/
def specSelectedCat (mode : Nat) (st : KiwiState) (sc : Scanner) : Option SpecCat :=
  specDispatchOrder.find? (specCatGuard mode st sc)

/-- The action of each category, as the state machine performs it. -/
def specCatAction (m : Markup) (t : Str) (sc : Scanner) :
    Option SpecCat → Markup × Str × Bool
  | some .orgHeader => (startOrgSection m, t ++ "<br/>".data, true)
  | some .codeFenceStart => (startCodeSection (endAllSections m), t, false)
  | some .codeFenceEnd => (endCodeSection m, t, false)
  | some .insideCode => (m, t, true)
  | some .listCat =>
    let m := endParagraph (endTable (endBlock (endOrgSection m)))
    let mt := addListLine m
    (mt.1, mt.2, true)
  | some .blockCat =>
    (startBlock (endParagraph (endTable (endAllLists (endOrgSection m)))), t, true)
  | some .tableCat =>
    let m := startTable (endParagraph (endAllLists (endBlock (endOrgSection m))))
    let m := emit m "    <tr>".data
    let m := sc.tableColumns.foldl (fun m column =>
      let column := applyInlineMarkup sc.isOrgHeader column
      if sc.isTableHeader then
        emit m ("        <th>".data ++ column ++ "</th>".data)
      else
        emit m ("        <td>".data ++ column ++ "</td>".data)) m
    (emit m "    </tr>".data, t, false)
  | some .headerCat =>
    (endAllSections m,
     "<h".data ++ natStr sc.headerLevel ++ ">".data ++ sc.headerText ++
       "</h".data ++ natStr sc.headerLevel ++ ">".data,
     true)
  | some .horizontalRule => (endAllSections m, "<hr>".data, true)
  | some .paragraphCat =>
    (startParagraph (endTable (endAllLists (endBlock (endOrgSection m)))), t, true)
  | some .blankCat =>
    (endParagraph (endTable (endAllLists (endOrgSection m))), t, false)
  | none => (m, t, true)

/-! Field-preservation lemmas for the classifier's check functions: which
scanner fields each check leaves untouched. -/

variable (sc : Scanner) (t n : Str) (st : KiwiState)

theorem splitPipe_ne_nil (s : Str) : splitPipe s ≠ [] := by
  induction s with
  | nil => simp [splitPipe]
  | cons c cs ih =>
    simp only [splitPipe]
    split
    · simp
    · split <;> simp

theorem hdr_isTable : (check_for_header sc t n).isTable = sc.isTable := by
  simp only [check_for_header]; (repeat' split) <;> simp

theorem hdr_isBlock : (check_for_header sc t n).isBlock = sc.isBlock := by
  simp only [check_for_header]; (repeat' split) <;> simp

theorem hdr_isBlankLine : (check_for_header sc t n).isBlankLine = sc.isBlankLine := by
  simp only [check_for_header]; (repeat' split) <;> simp

theorem hdr_isCodeEnd : (check_for_header sc t n).isCodeEnd = sc.isCodeEnd := by
  simp only [check_for_header]; (repeat' split) <;> simp

theorem tbl_isHeader : (check_for_table sc t n st).isHeader = sc.isHeader := by
  simp only [check_for_table]; (repeat' split) <;> simp

theorem tbl_headerLevel : (check_for_table sc t n st).headerLevel = sc.headerLevel := by
  simp only [check_for_table]; (repeat' split) <;> simp

theorem tbl_headerText : (check_for_table sc t n st).headerText = sc.headerText := by
  simp only [check_for_table]; (repeat' split) <;> simp

theorem tbl_isBlock : (check_for_table sc t n st).isBlock = sc.isBlock := by
  simp only [check_for_table]; (repeat' split) <;> simp

theorem tbl_isBlankLine : (check_for_table sc t n st).isBlankLine = sc.isBlankLine := by
  simp only [check_for_table]; (repeat' split) <;> simp

theorem tbl_isCodeEnd : (check_for_table sc t n st).isCodeEnd = sc.isCodeEnd := by
  simp only [check_for_table]; (repeat' split) <;> simp

theorem tbl_skip_true (h : sc.skipNextLine = true) :
    (check_for_table sc t n st).skipNextLine = true := by
  simp only [check_for_table]; (repeat' split) <;> simp_all

theorem tbl_isTable_inTable (h : st.inTable = true) :
    (check_for_table sc t n st).isTable = true := by
  have hlen : 0 < (splitPipe t).length := List.length_pos.mpr (splitPipe_ne_nil t)
  simp only [check_for_table]; (repeat' split) <;> simp_all

theorem blk_isHeader : (check_for_block sc t st).isHeader = sc.isHeader := by
  simp only [check_for_block]; (repeat' split) <;> simp

theorem blk_headerLevel : (check_for_block sc t st).headerLevel = sc.headerLevel := by
  simp only [check_for_block]; (repeat' split) <;> simp

theorem blk_headerText : (check_for_block sc t st).headerText = sc.headerText := by
  simp only [check_for_block]; (repeat' split) <;> simp

theorem blk_isBlankLine : (check_for_block sc t st).isBlankLine = sc.isBlankLine := by
  simp only [check_for_block]; (repeat' split) <;> simp

theorem blk_isCodeEnd : (check_for_block sc t st).isCodeEnd = sc.isCodeEnd := by
  simp only [check_for_block]; (repeat' split) <;> simp

theorem blk_isTable : (check_for_block sc t st).isTable = sc.isTable := by
  simp only [check_for_block]; (repeat' split) <;> simp

theorem blk_skip : (check_for_block sc t st).skipNextLine = sc.skipNextLine := by
  simp only [check_for_block]; (repeat' split) <;> simp

theorem blk_isBlock_inTable (h : st.inTable = true) :
    (check_for_block sc t st).isBlock = sc.isBlock := by
  simp only [check_for_block]; (repeat' split) <;> simp_all

theorem lst_isHeader : (check_for_list sc t n st).isHeader = sc.isHeader := by
  simp only [check_for_list]; (repeat' split) <;> simp

theorem lst_headerLevel : (check_for_list sc t n st).headerLevel = sc.headerLevel := by
  simp only [check_for_list]; (repeat' split) <;> simp

theorem lst_headerText : (check_for_list sc t n st).headerText = sc.headerText := by
  simp only [check_for_list]; (repeat' split) <;> simp

theorem lst_isBlankLine : (check_for_list sc t n st).isBlankLine = sc.isBlankLine := by
  simp only [check_for_list]; (repeat' split) <;> simp

theorem lst_isCodeEnd : (check_for_list sc t n st).isCodeEnd = sc.isCodeEnd := by
  simp only [check_for_list]; (repeat' split) <;> simp

theorem lst_isTable : (check_for_list sc t n st).isTable = sc.isTable := by
  simp only [check_for_list]; (repeat' split) <;> simp

theorem lst_isBlock : (check_for_list sc t n st).isBlock = sc.isBlock := by
  simp only [check_for_list]; (repeat' split) <;> simp

theorem lst_skip : (check_for_list sc t n st).skipNextLine = sc.skipNextLine := by
  simp only [check_for_list]; (repeat' split) <;> simp

theorem hrz_isHeader : (check_for_horizontal_line sc t).isHeader = sc.isHeader := by
  simp only [check_for_horizontal_line]; (repeat' split) <;> simp

theorem hrz_headerLevel : (check_for_horizontal_line sc t).headerLevel = sc.headerLevel := by
  simp only [check_for_horizontal_line]; (repeat' split) <;> simp

theorem hrz_headerText : (check_for_horizontal_line sc t).headerText = sc.headerText := by
  simp only [check_for_horizontal_line]; (repeat' split) <;> simp

theorem hrz_isBlankLine : (check_for_horizontal_line sc t).isBlankLine = sc.isBlankLine := by
  simp only [check_for_horizontal_line]; (repeat' split) <;> simp

theorem hrz_isCodeEnd : (check_for_horizontal_line sc t).isCodeEnd = sc.isCodeEnd := by
  simp only [check_for_horizontal_line]; (repeat' split) <;> simp

theorem hrz_isTable : (check_for_horizontal_line sc t).isTable = sc.isTable := by
  simp only [check_for_horizontal_line]; (repeat' split) <;> simp

theorem hrz_isBlock : (check_for_horizontal_line sc t).isBlock = sc.isBlock := by
  simp only [check_for_horizontal_line]; (repeat' split) <;> simp

theorem hrz_skip : (check_for_horizontal_line sc t).skipNextLine = sc.skipNextLine := by
  simp only [check_for_horizontal_line]; (repeat' split) <;> simp

theorem ccs_isHeader : (check_for_code_start sc t).isHeader = sc.isHeader := by
  simp only [check_for_code_start]; (repeat' split) <;> simp

theorem ccs_headerLevel : (check_for_code_start sc t).headerLevel = sc.headerLevel := by
  simp only [check_for_code_start]; (repeat' split) <;> simp

theorem ccs_headerText : (check_for_code_start sc t).headerText = sc.headerText := by
  simp only [check_for_code_start]; (repeat' split) <;> simp

theorem ccs_isBlankLine : (check_for_code_start sc t).isBlankLine = sc.isBlankLine := by
  simp only [check_for_code_start]; (repeat' split) <;> simp

theorem ccs_isCodeEnd : (check_for_code_start sc t).isCodeEnd = sc.isCodeEnd := by
  simp only [check_for_code_start]; (repeat' split) <;> simp

theorem ccs_isTable : (check_for_code_start sc t).isTable = sc.isTable := by
  simp only [check_for_code_start]; (repeat' split) <;> simp

theorem ccs_isBlock : (check_for_code_start sc t).isBlock = sc.isBlock := by
  simp only [check_for_code_start]; (repeat' split) <;> simp

theorem ccs_skip : (check_for_code_start sc t).skipNextLine = sc.skipNextLine := by
  simp only [check_for_code_start]; (repeat' split) <;> simp

theorem cce_isHeader : (check_for_code_end sc t).isHeader = sc.isHeader := by
  simp only [check_for_code_end]; (repeat' split) <;> simp

theorem cce_headerLevel : (check_for_code_end sc t).headerLevel = sc.headerLevel := by
  simp only [check_for_code_end]; (repeat' split) <;> simp

theorem cce_headerText : (check_for_code_end sc t).headerText = sc.headerText := by
  simp only [check_for_code_end]; (repeat' split) <;> simp

theorem cce_isBlankLine : (check_for_code_end sc t).isBlankLine = sc.isBlankLine := by
  simp only [check_for_code_end]; (repeat' split) <;> simp

theorem cce_isTable : (check_for_code_end sc t).isTable = sc.isTable := by
  simp only [check_for_code_end]; (repeat' split) <;> simp

theorem cce_isBlock : (check_for_code_end sc t).isBlock = sc.isBlock := by
  simp only [check_for_code_end]; (repeat' split) <;> simp

theorem cce_skip : (check_for_code_end sc t).skipNextLine = sc.skipNextLine := by
  simp only [check_for_code_end]; (repeat' split) <;> simp

theorem cce_isCodeEnd : (check_for_code_end sc t).isCodeEnd = (sc.isCodeEnd || codeEndMatch t) := by
  simp only [check_for_code_end]; (repeat' split) <;> simp_all

theorem org_isHeader : (check_for_org_header sc t).isHeader = sc.isHeader := by
  simp only [check_for_org_header]; (repeat' split) <;> simp

theorem org_headerLevel : (check_for_org_header sc t).headerLevel = sc.headerLevel := by
  simp only [check_for_org_header]; (repeat' split) <;> simp

theorem org_headerText : (check_for_org_header sc t).headerText = sc.headerText := by
  simp only [check_for_org_header]; (repeat' split) <;> simp

theorem org_isBlankLine : (check_for_org_header sc t).isBlankLine = sc.isBlankLine := by
  simp only [check_for_org_header]; (repeat' split) <;> simp

theorem org_isCodeEnd : (check_for_org_header sc t).isCodeEnd = sc.isCodeEnd := by
  simp only [check_for_org_header]; (repeat' split) <;> simp

theorem org_isTable : (check_for_org_header sc t).isTable = sc.isTable := by
  simp only [check_for_org_header]; (repeat' split) <;> simp

theorem org_isBlock : (check_for_org_header sc t).isBlock = sc.isBlock := by
  simp only [check_for_org_header]; (repeat' split) <;> simp

theorem org_skip : (check_for_org_header sc t).skipNextLine = sc.skipNextLine := by
  simp only [check_for_org_header]; (repeat' split) <;> simp

/-! Scan-level facts composed from the check lemmas. -/

theorem scan_isBlankLine (h : stripStr t ≠ []) :
    (sc.scan t n st).isBlankLine = false := by
  simp only [Scanner.scan]
  rw [if_neg h]
  split <;>
    simp only [org_isBlankLine, cce_isBlankLine, ccs_isBlankLine, hrz_isBlankLine,
      lst_isBlankLine, blk_isBlankLine, tbl_isBlankLine, hdr_isBlankLine, Scanner.reset]

theorem scan_isCodeEnd (h : stripStr t ≠ []) :
    (sc.scan t n st).isCodeEnd = codeEndMatch t := by
  simp only [Scanner.scan]
  rw [if_neg h]
  split <;>
    simp only [org_isCodeEnd, cce_isCodeEnd, ccs_isCodeEnd, hrz_isCodeEnd,
      lst_isCodeEnd, blk_isCodeEnd, tbl_isCodeEnd, hdr_isCodeEnd, Scanner.reset,
      Bool.false_or]

theorem scan_isTable_inTable (h : stripStr t ≠ []) (hT : st.inTable = true) :
    (sc.scan t n st).isTable = true := by
  simp only [Scanner.scan]
  rw [if_neg h]
  split <;>
    simp only [org_isTable, cce_isTable, ccs_isTable, hrz_isTable, lst_isTable,
      blk_isTable, tbl_isTable_inTable _ _ _ _ hT]

theorem scan_isBlock_inTable (h : stripStr t ≠ []) (hT : st.inTable = true) :
    (sc.scan t n st).isBlock = false := by
  simp only [Scanner.scan]
  rw [if_neg h]
  split <;>
    simp only [org_isBlock, cce_isBlock, ccs_isBlock, hrz_isBlock, lst_isBlock,
      blk_isBlock_inTable _ _ _ hT, tbl_isBlock, hdr_isBlock, Scanner.reset]

/-- check_for_header under the setext hypotheses: no ATX match and a
level-one underline on the next line. -/
theorem hdr_setext (h2 : atxMatch t = none) (h3 : eqUnderline n = true) :
    check_for_header sc t n =
      { sc with
        isParagraph := false, isHeader := true, skipNextLine := true,
        headerLevel := 1, headerText := t } := by
  simp only [check_for_header, h2, h3, if_true]

theorem scan_setext (h : stripStr t ≠ []) (h2 : atxMatch t = none)
    (h3 : eqUnderline n = true) :
    (sc.scan t n st).isHeader = true ∧ (sc.scan t n st).headerLevel = 1 ∧
      (sc.scan t n st).headerText = t ∧ (sc.scan t n st).skipNextLine = true := by
  simp only [Scanner.scan]
  rw [if_neg h]
  rw [hdr_setext _ _ _ h2 h3]
  refine ⟨?_, ?_, ?_, ?_⟩ <;>
    split <;>
      simp only [org_isHeader, cce_isHeader, ccs_isHeader, hrz_isHeader, lst_isHeader,
        blk_isHeader, tbl_isHeader, org_headerLevel, cce_headerLevel, ccs_headerLevel,
        hrz_headerLevel, lst_headerLevel, blk_headerLevel, tbl_headerLevel,
        org_headerText, cce_headerText, ccs_headerText, hrz_headerText, lst_headerText,
        blk_headerText, tbl_headerText, org_skip, cce_skip, ccs_skip, hrz_skip,
        lst_skip, blk_skip] <;>
      exact tbl_skip_true _ _ _ _ rfl

/-! The state machine only ever appends to the output. The OutExt relation
(the second machine's output extends the first's) is closed under every
operation of the machine. -/

theorem outExt_refl (m : Markup) : OutExt m m := ⟨[], by simp⟩

theorem outExt_trans {a b c : Markup} (h1 : OutExt a b) (h2 : OutExt b c) :
    OutExt a c := by
  obtain ⟨t1, e1⟩ := h1
  obtain ⟨t2, e2⟩ := h2
  exact ⟨t1 ++ t2, by simp [e2, e1]⟩

theorem outExt_ne_nil {a b : Markup} (h : OutExt a b) (hne : a.output ≠ []) :
    b.output ≠ [] := by
  obtain ⟨t2, e2⟩ := h
  rw [e2]
  simp_all

theorem outExt_emit {m x : Markup} (s : Str) (h : OutExt m x) :
    OutExt m (emit x s) := by
  obtain ⟨t2, e2⟩ := h
  exact ⟨t2 ++ [s], by simp [emit, e2]⟩

theorem outExt_same_output {m x : Markup} (s : KiwiState) (l : Scanner)
    (mo : Nat) (tl nl : Option Str) (ind : List Nat) (h : OutExt m x) :
    OutExt m (Markup.mk s l mo tl nl ind x.output) := h

theorem outExt_startParagraph {m x : Markup} (h : OutExt m x) :
    OutExt m (startParagraph x) := by
  unfold startParagraph
  split
  · exact outExt_same_output _ _ _ _ _ _ (outExt_emit _ h)
  · exact h

theorem outExt_endParagraph {m x : Markup} (h : OutExt m x) :
    OutExt m (endParagraph x) := by
  unfold endParagraph
  split
  · exact outExt_same_output _ _ _ _ _ _ (outExt_emit _ h)
  · exact h

theorem outExt_startBlock {m x : Markup} (h : OutExt m x) :
    OutExt m (startBlock x) := by
  unfold startBlock
  split
  · exact outExt_same_output _ _ _ _ _ _ (outExt_emit _ h)
  · exact h

theorem outExt_endBlock {m x : Markup} (h : OutExt m x) :
    OutExt m (endBlock x) := by
  unfold endBlock
  split
  · exact outExt_same_output _ _ _ _ _ _ (outExt_emit _ h)
  · exact h

theorem outExt_startTable {m x : Markup} (h : OutExt m x) :
    OutExt m (startTable x) := by
  unfold startTable
  split
  · exact outExt_same_output _ _ _ _ _ _ (outExt_emit _ h)
  · exact h

theorem outExt_endTable {m x : Markup} (h : OutExt m x) :
    OutExt m (endTable x) := by
  unfold endTable
  split
  · exact outExt_same_output _ _ _ _ _ _ (outExt_emit _ h)
  · exact h

theorem outExt_startOrgSection {m x : Markup} (h : OutExt m x) :
    OutExt m (startOrgSection x) := by
  unfold startOrgSection
  split
  · exact outExt_same_output _ _ _ _ _ _ (outExt_emit _ h)
  · exact h

theorem outExt_endOrgSection {m x : Markup} (h : OutExt m x) :
    OutExt m (endOrgSection x) := by
  unfold endOrgSection
  split
  · exact outExt_same_output _ _ _ _ _ _ (outExt_emit _ h)
  · exact h

theorem outExt_startCodeSection {m x : Markup} (h : OutExt m x) :
    OutExt m (startCodeSection x) := by
  unfold startCodeSection
  split
  · exact outExt_same_output _ _ _ _ _ _ (outExt_emit _ (outExt_emit _ h))
  · exact h

theorem outExt_endCodeSection {m x : Markup} (h : OutExt m x) :
    OutExt m (endCodeSection x) := by
  unfold endCodeSection
  split
  · exact outExt_same_output _ _ _ _ _ _ (outExt_emit _ (outExt_emit _ h))
  · exact h

theorem outExt_endNestedLoop {m : Markup} :
    ∀ (f : Nat) {x : Markup}, OutExt m x → OutExt m (endNestedLoop f x) := by
  intro f
  induction f with
  | zero => intro x h; exact h
  | succ f ih =>
    intro x h
    simp only [endNestedLoop]
    split
    · split
      · exact ih (outExt_same_output _ _ _ _ _ _ (outExt_emit _ (outExt_emit _ h)))
      · exact h
    · exact h

theorem outExt_endNestedList {m x : Markup} (h : OutExt m x) :
    OutExt m (endNestedList x) :=
  outExt_endNestedLoop _ h

theorem outExt_endList {m x : Markup} (h : OutExt m x) :
    OutExt m (endList x) := by
  simp only [endList]
  by_cases h1 : x.state.inList = true
  · rw [if_pos h1]
    by_cases h2 : x.indents.length ≠ 0
    · rw [if_pos h2]
      split
      · exact outExt_same_output _ _ _ _ _ _ (outExt_emit _ (outExt_endNestedList h))
      · exact outExt_endNestedList h
    · rw [if_neg h2]
      split
      · exact outExt_same_output _ _ _ _ _ _ (outExt_emit _ h)
      · exact h
  · rw [if_neg h1]
    exact h

theorem outExt_endAllListsLoop {m : Markup} :
    ∀ (f : Nat) {x : Markup}, OutExt m x → OutExt m (endAllListsLoop f x) := by
  intro f
  induction f with
  | zero => intro x h; exact h
  | succ f ih =>
    intro x h
    simp only [endAllListsLoop]
    split
    · exact ih (outExt_same_output _ _ _ _ _ _ (outExt_emit _ (outExt_emit _ h)))
    · exact h

theorem outExt_endAllLists {m x : Markup} (h : OutExt m x) :
    OutExt m (endAllLists x) :=
  outExt_endList (outExt_endAllListsLoop _ h)

theorem outExt_endAllSections {m x : Markup} (h : OutExt m x) :
    OutExt m (endAllSections x) :=
  outExt_endParagraph (outExt_endTable (outExt_endAllLists (outExt_endBlock
    (outExt_endOrgSection h))))

theorem outExt_startList {m x : Markup} (h : OutExt m x) :
    OutExt m (startList x) := by
  simp only [startList]
  (repeat' split) <;>
    first
    | exact h
    | exact outExt_same_output _ _ _ _ _ _ (outExt_emit _ (outExt_endParagraph
        (outExt_same_output _ _ _ _ _ _ h)))
    | exact outExt_same_output _ _ _ _ _ _ (outExt_emit _ (outExt_endParagraph
        (outExt_same_output _ _ _ _ _ _ (outExt_endNestedList h))))
    | exact outExt_endNestedList h

theorem outExt_addListLine {m x : Markup} (h : OutExt m x) :
    OutExt m (addListLine x).1 := by
  simp only [addListLine]
  split <;> exact outExt_startList h

theorem outExt_foldl {m : Markup} {α : Type} (g : Markup → α → Markup)
    (hg : ∀ x c, OutExt x (g x c)) :
    ∀ (l : List α) {x : Markup}, OutExt m x → OutExt m (l.foldl g x) := by
  intro l
  induction l with
  | nil => intro x h; exact h
  | cons c cs ih =>
    intro x h
    exact ih (outExt_trans h (hg x c))

set_option maxHeartbeats 1000000 in
theorem outExt_dispatchBranch {m x : Markup} (t : Str) (sc : Scanner)
    (h : OutExt m x) : OutExt m (dispatchBranch x t sc).1 := by
  simp only [dispatchBranch, apply_ite (@Prod.fst Markup (Str × Bool))]
  repeat' split
  · exact outExt_startOrgSection h
  · exact outExt_startCodeSection (outExt_endAllSections h)
  · exact outExt_endCodeSection h
  · exact h
  · exact outExt_addListLine (outExt_endParagraph (outExt_endTable
      (outExt_endBlock (outExt_endOrgSection h))))
  · exact outExt_startBlock (outExt_endParagraph (outExt_endTable
      (outExt_endAllLists (outExt_endOrgSection h))))
  · exact outExt_emit _ (outExt_foldl _ (fun y c => outExt_emit _ (outExt_refl y))
      _ (outExt_emit _ (outExt_startTable (outExt_endParagraph
        (outExt_endAllLists (outExt_endBlock (outExt_endOrgSection h)))))))
  · exact outExt_emit _ (outExt_foldl _ (fun y c => outExt_emit _ (outExt_refl y))
      _ (outExt_emit _ (outExt_startTable (outExt_endParagraph
        (outExt_endAllLists (outExt_endBlock (outExt_endOrgSection h)))))))
  · exact outExt_endAllSections h
  · exact outExt_endAllSections h
  · exact outExt_startParagraph (outExt_endTable (outExt_endAllLists
      (outExt_endBlock (outExt_endOrgSection h))))
  · exact outExt_endParagraph (outExt_endTable (outExt_endAllLists
      (outExt_endOrgSection h)))
  · exact h

theorem outExt_processLine (m : Markup) : OutExt m (processLine m) := by
  simp only [processLine]
  split
  · exact outExt_refl m
  · (repeat' split) <;>
      first
      | exact outExt_emit _ (outExt_dispatchBranch _ _
          (outExt_same_output _ _ _ _ _ _ (outExt_refl m)))
      | exact outExt_dispatchBranch _ _
          (outExt_same_output _ _ _ _ _ _ (outExt_refl m))

theorem outExt_execStep (m : Markup) (raw : Str) : OutExt m (execStep m raw) := by
  simp only [execStep]
  split
  · exact outExt_trans (outExt_same_output _ _ _ _ _ _ (outExt_refl m))
      (outExt_processLine _)
  · exact outExt_same_output _ _ _ _ _ _ (outExt_refl m)

/-! State-shape lemmas: what endAllSections leaves of the section flags. -/

theorem endOrgSection_state (m : Markup) :
    (endOrgSection m).state = { m.state with inOrgSection := false } := by
  unfold endOrgSection emit
  split
  · rfl
  · rename_i h
    have hf : m.state.inOrgSection = false := by
      revert h; cases m.state.inOrgSection <;> simp
    rw [← hf]

theorem endBlock_state (m : Markup) :
    (endBlock m).state = { m.state with inBlock := false } := by
  unfold endBlock emit
  split
  · rfl
  · rename_i h
    have hf : m.state.inBlock = false := by
      revert h; cases m.state.inBlock <;> simp
    rw [← hf]

theorem endTable_state (m : Markup) :
    (endTable m).state = { m.state with inTable := false } := by
  unfold endTable emit
  split
  · rfl
  · rename_i h
    have hf : m.state.inTable = false := by
      revert h; cases m.state.inTable <;> simp
    rw [← hf]

theorem endParagraph_state (m : Markup) :
    (endParagraph m).state = { m.state with inParagraph := false } := by
  unfold endParagraph emit
  split
  · rfl
  · rename_i h
    have hf : m.state.inParagraph = false := by
      revert h; cases m.state.inParagraph <;> simp
    rw [← hf]

theorem endAllListsLoop_state :
    ∀ (f : Nat) (m : Markup), (endAllListsLoop f m).state = m.state := by
  intro f
  induction f with
  | zero => intro m; rfl
  | succ f ih =>
    intro m
    simp only [endAllListsLoop]
    split
    · rw [ih]; rfl
    · rfl

theorem endAllListsLoop_indents :
    ∀ (f : Nat) (m : Markup), m.indents.length ≤ f →
      (endAllListsLoop f m).indents = [] := by
  intro f
  induction f with
  | zero =>
    intro m h
    simp only [endAllListsLoop]
    exact List.length_eq_zero.mp (Nat.le_zero.mp h)
  | succ f ih =>
    intro m h
    simp only [endAllListsLoop]
    split
    · refine ih _ ?_
      simp only [emit, List.length_dropLast]
      omega
    · rename_i hz
      simp only [ne_eq, Decidable.not_not] at hz
      exact List.length_eq_zero.mp hz

theorem endList_state_of_empty (m : Markup) (h : m.indents = []) :
    (endList m).state = { m.state with inList := false } := by
  have hz : m.indents.length = 0 := by rw [h]; rfl
  have hne : ¬(m.indents.length ≠ 0) := fun hc => hc hz
  simp only [endList]
  by_cases h1 : m.state.inList = true
  · rw [if_pos h1, if_neg hne, if_pos hz]
  · rw [if_neg h1]
    have hf : m.state.inList = false := by
      revert h1; cases m.state.inList <;> simp
    rw [← hf]

theorem endAllLists_state (m : Markup) :
    (endAllLists m).state = { m.state with inList := false } := by
  unfold endAllLists
  rw [endList_state_of_empty _ (endAllListsLoop_indents _ _ (Nat.le_refl _)),
    endAllListsLoop_state]

theorem endAllSections_state (m : Markup) :
    (endAllSections m).state =
      { m.state with
        inParagraph := false, inTable := false, inList := false,
        inBlock := false, inOrgSection := false } := by
  unfold endAllSections
  rw [endParagraph_state, endTable_state, endAllLists_state, endBlock_state,
    endOrgSection_state]

/-- Every successful run ends with all section flags closed, except the
fenced-code flag, which endAllSections does not touch. -/
theorem executeFromState_state (st : KiwiState) (lines : List Str)
    (mo : Option Nat) (M : Markup) (h : executeFromState st lines mo = some M) :
    M.state =
      { inParagraph := false, inTable := false, inList := false,
        inBlock := false, inOrgSection := false,
        inCodeSection := M.state.inCodeSection } := by
  match lines with
  | [] => simp [executeFromState] at h
  | first :: rest =>
    simp only [executeFromState] at h
    have hM := (Option.some_inj.mp h).symm
    rw [hM, endAllSections_state]

theorem emit_ne_nil (m : Markup) (s : Str) : (emit m s).output ≠ [] := by
  simp [emit]

/-- A dispatched line that is neither blank nor a fence closer, processed
while no code section is open, either keeps its includeLine flag (and will
be appended) or has already made its branch emit output. -/
theorem dispatch_emits (m : Markup) (t : Str) (sc : Scanner)
    (hcode : m.state.inCodeSection = false)
    (hce : sc.isCodeEnd = false) (hb : sc.isBlankLine = false) :
    (dispatchBranch m t sc).2.2 = true ∨ (dispatchBranch m t sc).1.output ≠ [] := by
  simp only [dispatchBranch]
  by_cases c1 : (decide (m.mode = KIWI_MODE_ORG) && sc.isOrgHeader) = true
  · rw [if_pos c1]; exact Or.inl rfl
  · rw [if_neg c1]
    by_cases c2 : sc.isCodeStart = true
    · rw [if_pos c2]
      refine Or.inr ?_
      have h5 : (endAllSections m).state.inCodeSection = false := by
        rw [endAllSections_state]; exact hcode
      unfold startCodeSection
      rw [if_pos (by simp [h5])]
      exact emit_ne_nil _ _
    · rw [if_neg c2, if_neg (show ¬(sc.isCodeEnd = true) by simp [hce]),
        if_neg (show ¬(m.state.inCodeSection = true) by simp [hcode])]
      by_cases c5 : sc.isList = true
      · rw [if_pos c5]; exact Or.inl rfl
      · rw [if_neg c5]
        by_cases c6 : sc.isBlock = true
        · rw [if_pos c6]; exact Or.inl rfl
        · rw [if_neg c6]
          by_cases c7 : sc.isTable = true
          · rw [if_pos c7]; exact Or.inr (emit_ne_nil _ _)
          · rw [if_neg c7]
            by_cases c8 : sc.isHeader = true
            · rw [if_pos c8]; exact Or.inl rfl
            · rw [if_neg c8]
              by_cases c9 : sc.isHorizontalLine = true
              · rw [if_pos c9]; exact Or.inl rfl
              · rw [if_neg c9]
                by_cases c10 : sc.isParagraph = true
                · rw [if_pos c10]; exact Or.inl rfl
                · rw [if_neg c10,
                    if_neg (show ¬(sc.isBlankLine = true) by simp [hb])]
                  exact Or.inl rfl

/-- Processing a non-blank line that is not a fence closer, from a fresh
state, emits at least one output line. -/
theorem processLine_first_emits (mode : Nat) (p nl : Str)
    (h1 : stripStr p ≠ []) (h2 : codeEndMatch p = false) :
    (processLine (firstMachine mode p nl)).output ≠ [] := by
  have hb := scan_isBlankLine (initScanner mode) p nl freshState h1
  have hce : (Scanner.scan (initScanner mode) p nl freshState).isCodeEnd = false := by
    rw [scan_isCodeEnd _ _ _ _ h1]; exact h2
  simp only [processLine, firstMachine, Option.getD]
  rcases dispatch_emits
      { state := freshState, line := Scanner.scan (initScanner mode) p nl freshState,
        mode := mode, thisLine := some p, nextLine := some nl, indents := [],
        output := [] }
      p (Scanner.scan (initScanner mode) p nl freshState) rfl hce hb with hinc | hne
  · rw [if_pos hinc]
    split <;> exact emit_ne_nil _ _
  · by_cases hi : (dispatchBranch
        { state := freshState, line := Scanner.scan (initScanner mode) p nl freshState,
          mode := mode, thisLine := some p, nextLine := some nl, indents := [],
          output := [] } p (Scanner.scan (initScanner mode) p nl freshState)).2.2 = true
    · rw [if_pos hi]
      split <;> exact emit_ne_nil _ _
    · rw [if_neg hi]
      exact hne

/-- The end-of-input flush step of execute extends the output. -/
theorem outExt_flush (m : Markup) :
    OutExt m (if !m.line.skipNextLine then
      processLine { m with thisLine := m.nextLine, nextLine := some [] } else m) := by
  split
  · exact outExt_trans (outExt_same_output _ _ _ _ _ _ (outExt_refl m))
      (outExt_processLine _)
  · exact outExt_refl m

/-- C2 (amended): convert returns succeeded true and non-empty output
whenever its first line, right-stripped and tab-expanded, is non-blank and
does not match the fence-closer pattern. (As stated, the claim fails: a
non-blank fence-closer line emits nothing, see the counterexample.) -/
theorem claim_C2 (first : Str) (rest : List Str)
    (h1 : stripStr (tabExpand (rstrip first)) ≠ [])
    (h2 : codeEndMatch (tabExpand (rstrip first)) = false) :
    ∃ out, convert (first :: rest) = some (true, out) ∧ out ≠ [] := by
  cases rest with
  | nil =>
    have key : executeFromState freshState [first] none =
        some (endAllSections (processLine (firstMachine
          (if containsSub "- mode: org -".data first then KIWI_MODE_ORG else KIWI_MODE_STD)
          (tabExpand (rstrip first)) []))) := rfl
    have hne : (endAllSections (processLine (firstMachine
        (if containsSub "- mode: org -".data first then KIWI_MODE_ORG else KIWI_MODE_STD)
        (tabExpand (rstrip first)) []))).output ≠ [] :=
      outExt_ne_nil (outExt_endAllSections (outExt_refl _))
        (processLine_first_emits _ _ _ h1 h2)
    refine ⟨_, ?_, hne⟩
    unfold convert
    rw [key]
    simp only [Option.map_some']
    rw [decide_eq_true (List.length_pos.mpr hne)]
  | cons r rs =>
    have key : executeFromState freshState (first :: r :: rs) none =
        some (endAllSections
          (let y := List.foldl execStep
            (processLine (firstMachine
              (if containsSub "- mode: org -".data first then KIWI_MODE_ORG else KIWI_MODE_STD)
              (tabExpand (rstrip first)) (tabExpand (rstrip r)))) rs
          if !y.line.skipNextLine then
            processLine { y with thisLine := y.nextLine, nextLine := some [] } else y)) := rfl
    have hp : (processLine (firstMachine
        (if containsSub "- mode: org -".data first then KIWI_MODE_ORG else KIWI_MODE_STD)
        (tabExpand (rstrip first)) (tabExpand (rstrip r)))).output ≠ [] :=
      processLine_first_emits _ _ _ h1 h2
    have hy : (List.foldl execStep
        (processLine (firstMachine
          (if containsSub "- mode: org -".data first then KIWI_MODE_ORG else KIWI_MODE_STD)
          (tabExpand (rstrip first)) (tabExpand (rstrip r)))) rs).output ≠ [] :=
      outExt_ne_nil (outExt_foldl execStep (fun x c => outExt_execStep x c) rs
        (outExt_refl _)) hp
    have hne : (endAllSections
        (let y := List.foldl execStep
          (processLine (firstMachine
            (if containsSub "- mode: org -".data first then KIWI_MODE_ORG else KIWI_MODE_STD)
            (tabExpand (rstrip first)) (tabExpand (rstrip r)))) rs
        if !y.line.skipNextLine then
          processLine { y with thisLine := y.nextLine, nextLine := some [] } else y)).output ≠ [] :=
      outExt_ne_nil (outExt_endAllSections (outExt_flush _)) hy
    refine ⟨_, ?_, hne⟩
    unfold convert
    rw [key]
    simp only [Option.map_some']
    rw [decide_eq_true (List.length_pos.mpr hne)]


/-- C4 (amended): conversion runs on one KiwiMarkup instance are
independent provided the earlier run did not end inside an unterminated
fenced-code section: the flush clears every other flag, so a first run
ending with inCodeSection false leaves the instance state exactly fresh and
the second run's result equals a fresh instance's. -/
theorem claim_C4 (L1 L2 : List Str) (M1 : Markup)
    (h1 : executeFromState freshState L1 none = some M1)
    (h2 : M1.state.inCodeSection = false) :
    executeFromState M1.state L2 none = executeFromState freshState L2 none := by
  have hs := executeFromState_state freshState L1 none M1 h1
  rw [h2] at hs
  rw [hs]
  rfl

set_option maxHeartbeats 1000000 in
/-- C6: for every line and classification, the section state machine's elif
chain equals dispatch by first match over the spec's fixed category order:
org-header, code-fence-start, code-fence-end, inside-code, list, block,
table, header, horizontal-rule, paragraph, blank. -/
theorem claim_C6 (m : Markup) (t : Str) (sc : Scanner) :
    dispatchBranch m t sc =
      specCatAction m t sc (specSelectedCat m.mode m.state sc) := by
  simp only [dispatchBranch, specSelectedCat, specDispatchOrder]
  by_cases c1 : (decide (m.mode = KIWI_MODE_ORG) && sc.isOrgHeader) = true
  · rw [if_pos c1, List.find?_cons_of_pos _ (show specCatGuard m.mode m.state sc .orgHeader = true from c1)]; rfl
  · rw [if_neg c1, List.find?_cons_of_neg _ (show ¬specCatGuard m.mode m.state sc .orgHeader = true from c1)]
    by_cases c2 : sc.isCodeStart = true
    · rw [if_pos c2, List.find?_cons_of_pos _ (show specCatGuard m.mode m.state sc .codeFenceStart = true from c2)]; rfl
    · rw [if_neg c2, List.find?_cons_of_neg _ (show ¬specCatGuard m.mode m.state sc .codeFenceStart = true from c2)]
      by_cases c3 : sc.isCodeEnd = true
      · rw [if_pos c3, List.find?_cons_of_pos _ (show specCatGuard m.mode m.state sc .codeFenceEnd = true from c3)]; rfl
      · rw [if_neg c3, List.find?_cons_of_neg _ (show ¬specCatGuard m.mode m.state sc .codeFenceEnd = true from c3)]
        by_cases c4 : m.state.inCodeSection = true
        · rw [if_pos c4, List.find?_cons_of_pos _ (show specCatGuard m.mode m.state sc .insideCode = true from c4)]; rfl
        · rw [if_neg c4, List.find?_cons_of_neg _ (show ¬specCatGuard m.mode m.state sc .insideCode = true from c4)]
          by_cases c5 : sc.isList = true
          · rw [if_pos c5, List.find?_cons_of_pos _ (show specCatGuard m.mode m.state sc .listCat = true from c5)]; rfl
          · rw [if_neg c5, List.find?_cons_of_neg _ (show ¬specCatGuard m.mode m.state sc .listCat = true from c5)]
            by_cases c6 : sc.isBlock = true
            · rw [if_pos c6, List.find?_cons_of_pos _ (show specCatGuard m.mode m.state sc .blockCat = true from c6)]; rfl
            · rw [if_neg c6, List.find?_cons_of_neg _ (show ¬specCatGuard m.mode m.state sc .blockCat = true from c6)]
              by_cases c7 : sc.isTable = true
              · rw [if_pos c7, List.find?_cons_of_pos _ (show specCatGuard m.mode m.state sc .tableCat = true from c7)]; rfl
              · rw [if_neg c7, List.find?_cons_of_neg _ (show ¬specCatGuard m.mode m.state sc .tableCat = true from c7)]
                by_cases c8 : sc.isHeader = true
                · rw [if_pos c8, List.find?_cons_of_pos _ (show specCatGuard m.mode m.state sc .headerCat = true from c8)]; rfl
                · rw [if_neg c8, List.find?_cons_of_neg _ (show ¬specCatGuard m.mode m.state sc .headerCat = true from c8)]
                  by_cases c9 : sc.isHorizontalLine = true
                  · rw [if_pos c9, List.find?_cons_of_pos _ (show specCatGuard m.mode m.state sc .horizontalRule = true from c9)]; rfl
                  · rw [if_neg c9, List.find?_cons_of_neg _ (show ¬specCatGuard m.mode m.state sc .horizontalRule = true from c9)]
                    by_cases c10 : sc.isParagraph = true
                    · rw [if_pos c10, List.find?_cons_of_pos _ (show specCatGuard m.mode m.state sc .paragraphCat = true from c10)]; rfl
                    · rw [if_neg c10, List.find?_cons_of_neg _ (show ¬specCatGuard m.mode m.state sc .paragraphCat = true from c10)]
                      by_cases c11 : sc.isBlankLine = true
                      · rw [if_pos c11, List.find?_cons_of_pos _ (show specCatGuard m.mode m.state sc .blankCat = true from c11)]; rfl
                      · rw [if_neg c11, List.find?_cons_of_neg _ (show ¬specCatGuard m.mode m.state sc .blankCat = true from c11),
                          List.find?_nil]; rfl

/-- A line of six or more equals signs satisfies the setext underline
regex. -/
theorem eqUnderline_of_all_eq (n : Str) (h6 : 6 ≤ n.length)
    (hall : ∀ c ∈ n, c = '=') : eqUnderline n = true := by
  have ht : n.takeWhile (fun c => c = '=') = n := by
    rw [List.takeWhile_eq_self_iff]
    intro c hc
    simp [hall c hc]
  simp [eqUnderline, ht, List.drop_length, dollarEnd, h6]

/-! The claims. -/

/-- C1: the claimed tag balance fails on the code for lists. Converting the
single item list yields one output line containing the opening ul tag but
two lines containing the closing one (and a stray closing li):
endAllLists closes every open level with a closing ul-li pair and endList
then closes the list once more. -/
theorem claim_C1 :
    convert ["* a".data] = some (true,
      ["<ul>".data, "    <li>a</li>".data, "    </ul>".data, "</li>".data,
        "</ul>".data]) ∧
    ((convert ["* a".data]).map (fun r =>
      (r.2.countP (fun l => containsSub "<ul>".data l),
        r.2.countP (fun l => containsSub "</ul>".data l))) = some (1, 2)) := by
  exact ⟨by decide, by decide⟩

/-- C2 counterexample: the input [":code"] is non-empty and its only line is
non-blank, yet convert returns succeeded false and empty output, because the
fence-closer branch emits nothing. -/
theorem claim_C2_cex :
    convert [":code".data] = some (false, []) ∧ stripStr ":code".data ≠ [] := by
  exact ⟨by decide, by decide⟩

/-- C2 witness: a plain one-line input. -/
theorem claim_C2_witness :
    ∃ out, convert ["hello".data] = some (true, out) ∧ out ≠ [] :=
  claim_C2 "hello".data [] (by decide) (by decide)

/-- C3: the end-of-input flush does not close an open fenced-code section:
endAllSections never calls endCodeSection, so an unterminated fence leaves
the output without closing code and pre tags and the state with
inCodeSection still true — against the claim (and against endAllSections'
own docstring, which says it closes any and all open tags). -/
theorem claim_C3 :
    (executeFromState freshState ["code:".data, "hello".data] none).map
        (fun m => (m.output, m.state.inCodeSection)) =
      some ((["<pre>".data, "<code>".data, "o".data]), true) := by
  decide

/-- C4 counterexample: running ["code:"] first leaves inCodeSection true on
the instance, so a second run on ["hello"] strips and escapes the line as
fenced-code content instead of making a paragraph — a fresh instance
disagrees. -/
theorem claim_C4_cex :
    ((executeFromState freshState ["code:".data] none).bind
        (fun m1 => executeFromState m1.state ["hello".data] none)).map
      (fun m => m.output) ≠
    (executeFromState freshState ["hello".data] none).map (fun m => m.output) := by
  decide

/-- C4 witness: two clean one-line runs. -/
theorem claim_C4_witness :
    executeFromState ((executeFromState freshState ["a".data] none).getD
        (firstMachine 0 [] [])).state ["b".data] none =
      executeFromState freshState ["b".data] none :=
  claim_C4 ["a".data] ["b".data] _ (by decide) (by decide)

/-- C5 counterexample: an underline of exactly five equals signs does not
make a setext header — the regex needs six — so the line pair becomes an
ordinary paragraph and no h1 element appears. -/
theorem claim_C5_cex :
    convert ["Title".data, "=====".data] =
      some (true, ["<p>".data, "Title".data, "=====".data, "</p>".data]) ∧
    ((convert ["Title".data, "=====".data]).map (fun r =>
      r.2.countP (fun l => containsSub "<h1>".data l)) = some 0) := by
  exact ⟨by decide, by decide⟩

/-- C5 (amended): for every non-blank current line that does not match the
ATX pattern, a next line of SIX or more equals signs makes scan classify the
line as a setext level-one header whose text is the current line, and sets
skipNextLine so the underline is consumed and never processed as a line of
its own. -/
theorem claim_C5 (sc : Scanner) (st : KiwiState) (p n : Str)
    (h1 : stripStr p ≠ []) (h2 : atxMatch p = none)
    (h3 : 6 ≤ n.length) (h4 : ∀ c ∈ n, c = '=') :
    (sc.scan p n st).isHeader = true ∧ (sc.scan p n st).headerLevel = 1 ∧
      (sc.scan p n st).headerText = p ∧ (sc.scan p n st).skipNextLine = true :=
  scan_setext sc p n st h1 h2 (eqUnderline_of_all_eq n h3 h4)

/-- C5 witness: a plain title over a six-equals underline. -/
theorem claim_C5_witness :
    ((initScanner 0).scan "Title".data "======".data freshState).isHeader = true ∧
      ((initScanner 0).scan "Title".data "======".data freshState).headerLevel = 1 ∧
      ((initScanner 0).scan "Title".data "======".data freshState).headerText =
        "Title".data ∧
      ((initScanner 0).scan "Title".data "======".data freshState).skipNextLine = true :=
  claim_C5 (initScanner 0) freshState "Title".data "======".data
    (by decide) (by decide) (by decide) (by decide)

/-- C7: the three-line table scenario produces exactly one table pair with a
three-cell header row and a three-cell data row; the divider line is
consumed and the raw row lines are not emitted. -/
theorem claim_C7 :
    convert ["a|b|c".data, "---|---|---".data, "1|2|3".data] = some (true,
      ["<table>".data, "    <tr>".data, "        <th>a</th>".data,
        "        <th>b</th>".data, "        <th>c</th>".data, "    </tr>".data,
        "    <tr>".data, "        <td>1</td>".data, "        <td>2</td>".data,
        "        <td>3</td>".data, "    </tr>".data, "</table>".data]) ∧
    ((convert ["a|b|c".data, "---|---|---".data, "1|2|3".data]).map (fun r =>
      (r.2.countP (fun l => containsSub "<table>".data l),
        r.2.countP (fun l => containsSub "</table>".data l))) = some (1, 1)) := by
  exact ⟨by decide, by decide⟩

set_option maxRecDepth 4000 in
/-- C8: the extended image, audio and link passes expand a capture group
that did not take part in the match as the empty string (groupStr of none)
and never fail: the class-and-alt form renders fully, and the bare forms
render with empty class and alt attributes. -/
theorem claim_C8 :
    applyInlineMarkup false "[img.pic:desc](x.png)".data =
      "<img src='x.png' class='pic' alt='desc' title='desc'/>".data ∧
    applyInlineMarkup false "[img](x.png)".data =
      "<img src='x.png' class='' alt='' title=''/>".data ∧
    applyInlineMarkup false "[audio](a.mp3)".data =
      "<audio width='300px' height='32px' src='a.mp3' class='' controls='controls'> Your browser does not support audio playback. </audio>".data ∧
    applyInlineMarkup false "[link](p)".data =
      "<a href='p' class='' alt=''></a>".data ∧
    groupStr none = [] := by
  refine ⟨by decide, by decide, by decide, by decide, rfl⟩

/-- C9 counterexample: an unmatched bold open marker is NOT left as literal
text: the open substitution fires without any matching close, and the two
asterisks disappear from the output. -/
theorem claim_C9_cex :
    applyInlineMarkup false "**x".data = "<b>x".data ∧
    containsSub "**".data (applyInlineMarkup false "**x".data) = false := by
  exact ⟨by decide, by decide⟩

/-- C9 (amended): the bold and emphasis substitutions fire on each marker
independently of a matching partner. An open marker satisfying its boundary
condition is rewritten even when unmatched; a marker satisfying neither the
open nor the close boundary pattern is left as literal text. -/
theorem claim_C9 :
    applyInlineMarkup false "**x".data = "<b>x".data ∧
    applyInlineMarkup false "_x".data = "<i>x".data ∧
    applyInlineMarkup false "a**b".data = "a**b".data ∧
    applyInlineMarkup false "a_b".data = "a_b".data := by
  refine ⟨by decide, by decide, by decide, by decide⟩

/-- C10 counterexample: a horizontal-rule line of six hyphens directly after
a table row is not emitted as a single-cell table row: the row's scan reads
it as a setext underline and consumes it, so it never appears at all — the
output has a single row and no line containing the hyphens. -/
theorem claim_C10_cex :
    convert ["a|b|c".data, "------".data] = some (true,
      ["<table>".data, "    <tr>".data, "        <td>a</td>".data,
        "        <td>b</td>".data, "        <td>c</td>".data, "    </tr>".data,
        "</table>".data]) ∧
    ((convert ["a|b|c".data, "------".data]).map (fun r =>
      r.2.countP (fun l => containsSub "------".data l)) = some 0) := by
  exact ⟨by decide, by decide⟩

/-- C10 (amended): while a table is open, every non-blank line that is
actually scanned is classified as a table row (a pipe split always yields at
least one piece) and the indented-block detector never fires; an ATX header
line directly after a table row is emitted as a single-cell data row.
(A horizontal-rule line directly after a table row is instead consumed as a
setext underline by the lookahead, see the counterexample.) -/
theorem claim_C10 :
    (∀ (sc : Scanner) (st : KiwiState) (p n : Str), stripStr p ≠ [] →
      st.inTable = true →
      (sc.scan p n st).isTable = true ∧ (sc.scan p n st).isBlock = false) ∧
    convert ["a|b|c".data, "# head".data] = some (true,
      ["<table>".data, "    <tr>".data, "        <td>a</td>".data,
        "        <td>b</td>".data, "        <td>c</td>".data, "    </tr>".data,
        "    <tr>".data, "        <td># head</td>".data, "    </tr>".data,
        "</table>".data]) := by
  refine ⟨fun sc st p n h1 h2 =>
    ⟨scan_isTable_inTable sc p n st h1 h2, scan_isBlock_inTable sc p n st h1 h2⟩,
    by decide⟩

/-- C10 witness: a hash header line scanned while a table is open. -/
theorem claim_C10_witness :
    ((initScanner 0).scan "# head".data []
        { freshState with inTable := true }).isTable = true ∧
      ((initScanner 0).scan "# head".data []
        { freshState with inTable := true }).isBlock = false :=
  claim_C10.1 (initScanner 0) { freshState with inTable := true }
    "# head".data [] (by decide) rfl

end Kiwi
